import Mathlib

/-!
Verification of the reverb priority-table specification against the code.

The repository ships, under src/, the priority-table unit tests, the
client-side ReplaySampler, the InsertOnSample table extension and the LIFO
distribution header.  The PriorityTable and RateLimiter implementations
themselves are not part of src/, so those two components are modelled from
the specification text; every other definition below is a direct shallow
embedding of the corresponding C++ source.
-/

namespace Reverb

/-! ## Status codes crossing the boundary -/

/-- Error codes used on the external boundary (tensorflow status codes). -/
inductive Code where
  | ok
  | cancelled
  | deadlineExceeded
  | outOfRange
  | streamError
  deriving DecidableEq, Repr

/-! ## InsertOnSampleExtension (src/reverb/cc/table_extensions/insert_on_sample.cc) -/

/-- A PrioritizedItem as used by the extension: the metadata fields touched by
InsertOnSampleExtension::ApplyOnSample. -/
structure PrioritizedItem where
  key : Nat
  table : String
  priority : ℚ
  timesSampled : ℤ
  insertedAt : Option Nat
  deriving DecidableEq, Repr

/-- Embedding of InsertOnSampleExtension::ApplyOnSample.  The C++ callback
returns early unless item.times_sampled == 1; otherwise it copies the item,
sets the table field to the target table name, clears inserted_at and inserts
the copy into the target table.  We return the item handed to
Table::InsertOrAssign, or none when the callback is a no-op. -/
def applyOnSample (targetTableName : String) (item : PrioritizedItem) :
    Option PrioritizedItem :=
  if item.timesSampled ≠ 1 then none
  else some { item with table := targetTableName, insertedAt := none }

/-! ## Client-side Sample (src/reverb/cc/replay_sampler.cc, class Sample) -/

/-- The per-sample iterator state of class Sample.  A tensor is abstracted to
its leading dimension; chunks holds, per remaining chunk, the list of tensor
leading dimensions. -/
structure SampleIter where
  chunks : List (List Nat)
  nextTimestepIndex : Nat
  nextTimestepCalled : Bool
  deriving DecidableEq, Repr

/-- Sample::is_end_of_sample: true when no chunks remain. -/
def SampleIter.isEndOfSample (s : SampleIter) : Bool := s.chunks.isEmpty

/-- Embedding of Sample::GetNextTimestep.  The REVERB_CHECK on
is_end_of_sample is modelled by returning none (process abort).  Otherwise the
index advances, the front chunk is popped when exhausted, and
next_timestep_called_ is set. -/
def SampleIter.getNextTimestep (s : SampleIter) : Option SampleIter :=
  match s.chunks with
  | [] => none
  | front :: rest =>
      let idx := s.nextTimestepIndex + 1
      let dim0 := front.headD 0
      if idx = dim0 then
        some { chunks := rest, nextTimestepIndex := 0, nextTimestepCalled := true }
      else
        some { chunks := front :: rest, nextTimestepIndex := idx,
               nextTimestepCalled := true }

/-- Embedding of Sample::AsBatchedTimesteps.  The CHECK(!next_timestep_called_)
fail-stop is modelled by returning none; on success the call consumes every
chunk and returns the total number of timesteps batched. -/
def SampleIter.asBatchedTimesteps (s : SampleIter) : Option Nat :=
  if s.nextTimestepCalled then none
  else some ((s.chunks.map (fun c => c.headD 0)).sum)

/-! ## ReplaySampler (src/reverb/cc/replay_sampler.cc) -/

/-- The fields of ReplaySampler that PopNextSample / GetNextSample /
GetNextTimestep read and write.  The internal queue of pending samples is
abstracted to the list of sample keys it currently holds together with its
closed flag (Queue::Pop returns false once the queue is closed). -/
structure ReplaySamplerState where
  returned : Nat
  maxSamples : Nat
  closed : Bool
  streamErr : Bool
  queueClosed : Bool
  queue : List Nat
  deriving DecidableEq, Repr

/-- internal::Queue::Pop as observed by the sampler: yields the front element
unless the queue has been closed. -/
def queuePop (s : ReplaySamplerState) : Option Nat :=
  if s.queueClosed then none else s.queue.head?

/-- Embedding of ReplaySampler::PopNextSample.  If the queue yields a sample
the call succeeds; otherwise the method checks returned_ == max_samples_
(OUT_OF_RANGE), then closed_ (CANCELLED), then the stored stream status. -/
def popNextSample (s : ReplaySamplerState) :
    Code × Option Nat × ReplaySamplerState :=
  match queuePop s with
  | some x => (Code.ok, some x, { s with queue := s.queue.tail })
  | none =>
      if s.returned = s.maxSamples then (Code.outOfRange, none, s)
      else if s.closed then (Code.cancelled, none, s)
      else if s.streamErr then (Code.streamError, none, s)
      else (Code.ok, none, s)

/-- The bookkeeping GetNextSample and GetNextTimestep share after a full
sample has been handed out: increment returned_ and close the queue when
max_samples_ is reached. -/
def recordReturned (s : ReplaySamplerState) : ReplaySamplerState :=
  let r := s.returned + 1
  { s with returned := r, queueClosed := s.queueClosed || decide (r = s.maxSamples) }

/-- Embedding of ReplaySampler::GetNextSample: pop the next full sample,
propagating any error, then record that one more sample was returned. -/
def getNextSample (s : ReplaySamplerState) : Code × ReplaySamplerState :=
  match popNextSample s with
  | (Code.ok, _, s1) => (Code.ok, recordReturned s1)
  | (c, _, s1) => (c, s1)

/-- Embedding of ReplaySampler::MaybeSampleNext as used by GetNextTimestep:
when no active sample remains (active = none or exhausted), pop the next one.
The active sample is abstracted to its remaining timestep count. -/
def maybeSampleNext (active : Option Nat) (s : ReplaySamplerState) :
    Code × Option Nat × ReplaySamplerState :=
  match active with
  | some n => if n = 0 then popNextSample s else (Code.ok, some n, s)
  | none => popNextSample s

/-! ## Rational values

The source stores priorities and rate-limiter parameters in doubles.  All
values appearing in the specification scenarios are exactly representable, so
we model them as fractions of integers.  Operations keep the denominator
positive and do not normalize; comparisons cross-multiply, which is correct
whenever both denominators are positive (every denominator built below is a
product of positive denominators). -/

/-- A fraction of integers standing in for the double-typed fields of the
source.  Invariant maintained by all constructions below: den is positive. -/
structure Frac where
  num : ℤ
  den : ℤ
  deriving DecidableEq, Repr

/-- Embed an integer as a fraction. -/
def Frac.ofInt (n : ℤ) : Frac := ⟨n, 1⟩

/-- Fraction multiplication (no normalization). -/
def Frac.mul (a b : Frac) : Frac := ⟨a.num * b.num, a.den * b.den⟩

/-- Fraction subtraction (no normalization). -/
def Frac.sub (a b : Frac) : Frac := ⟨a.num * b.den - b.num * a.den, a.den * b.den⟩

/-- Fraction negation. -/
def Frac.neg (a : Frac) : Frac := ⟨-a.num, a.den⟩

/-- Comparison by cross-multiplication; correct for positive denominators. -/
def Frac.le (a b : Frac) : Bool := decide (a.num * b.den ≤ b.num * a.den)

/-- Semantic equality by cross-multiplication. -/
def Frac.eqv (a b : Frac) : Bool := decide (a.num * b.den = b.num * a.den)

/-- The largest finite double, DBL_MAX = 2 ^ 1024 - 2 ^ 971, used by the unit
tests as an effectively unlimited rate-limiter bound; written as a literal so
that kernel evaluation does not unfold a 1024-step power. -/
def dblMax : Frac :=
  ⟨179769313486231570814527423731704356798070567525844996598917476803157260780028538760589558632766878171540458953514382464234321326889464182768467546703537516986049910576551282076245490090389328944075868508455133942304583236903222948165808559332123348274797826204144723168738177180919299881250404026184124858368, 1⟩

/-! ## RateLimiter

Modelled from the spec: the RateLimiter implementation is not under src/
(only its callers and the priority-table unit tests are).  Per section 4.2 it
tracks insert_count I and sample_count S for parameters samples_per_insert
(a ratio r), min_size_to_sample M, min_diff and max_diff, and per section 2
it blocks inserts and samples so that the sample/insert relationship
diff = r*I - S stays inside the window [min_diff, max_diff]: an insert may
proceed when the tentative diff r*(I+1) - S still fits under max_diff, and a
sample may proceed when I has reached M and the tentative diff r*I - (S+1)
still sits above min_diff.  This reading reproduces every literal scenario of
section 8 and every unit test in the repository; section 4.2 states the
gates through an error term E = S - r*(I - M), whose offset by r*M is
inconsistent with those scenarios (see the C2 theorems below). -/

/-- Rate limiter parameters (spec section 4.2). -/
structure RateLimiterConfig where
  samplesPerInsert : Frac
  minSizeToSample : ℤ
  minDiff : Frac
  maxDiff : Frac
  deriving DecidableEq, Repr

/-- Rate limiter counters: successful inserts and samples since reset. -/
structure RateLimiterState where
  insertCount : Nat
  sampleCount : Nat
  deriving DecidableEq, Repr

/-- Modelled from the spec: the insert gate.  One more insert must keep the
diff r*I - S at or under max_diff. -/
def canInsert (c : RateLimiterConfig) (r : RateLimiterState) : Bool :=
  Frac.le (Frac.sub (c.samplesPerInsert.mul (Frac.ofInt (r.insertCount + 1)))
      (Frac.ofInt r.sampleCount)) c.maxDiff

/-- Modelled from the spec: the sample gate.  The table must hold at least
min_size_to_sample inserts and one more sample must keep the diff r*I - S at
or above min_diff. -/
def canSample (c : RateLimiterConfig) (r : RateLimiterState) : Bool :=
  decide (c.minSizeToSample ≤ (r.insertCount : ℤ)) &&
    Frac.le c.minDiff (Frac.sub (c.samplesPerInsert.mul (Frac.ofInt r.insertCount))
      (Frac.ofInt (r.sampleCount + 1)))

/-- The error term exactly as the words of spec section 4.2 define it:
E = S - r*(I - M). -/
def errorSpecFormula (c : RateLimiterConfig) (r : RateLimiterState) : Frac :=
  Frac.sub (Frac.ofInt r.sampleCount)
    (c.samplesPerInsert.mul (Frac.ofInt ((r.insertCount : ℤ) - c.minSizeToSample)))

/-- The error term without the min_size_to_sample offset: E = S - r*I, the
negated diff.  This is the quantity whose values the scenario in spec
section 8.3 reports. -/
def errorDiff (c : RateLimiterConfig) (r : RateLimiterState) : Frac :=
  Frac.sub (Frac.ofInt r.sampleCount)
    (c.samplesPerInsert.mul (Frac.ofInt r.insertCount))

/-! ## PriorityTable

Modelled from the spec: the PriorityTable implementation is not under src/
(only its unit tests are).  Sections 3 and 4.3 describe the state and the
operations.  All tables in the claims use a FIFO remover, so the item list is
kept in remover iteration order (oldest first): the FIFO eviction victim is
the head and newly inserted items append at the tail.  The sampled key is a
parameter of the sample operation; a FIFO sampler picks the head, a uniform
sampler may pick any live key. -/

/-- A table item: key, priority and times_sampled (spec section 3).  Chunk
handles and timestamps do not influence any claim and are omitted. -/
structure Item where
  key : Nat
  priority : Frac
  timesSampled : ℤ
  deriving DecidableEq, Repr

/-- Table construction parameters (spec section 4.3). -/
structure TableConfig where
  maxSize : Nat
  maxTimesSampled : ℤ
  limiter : RateLimiterConfig
  deriving DecidableEq, Repr

/-- Table state: the items in remover (FIFO) iteration order, the rate
limiter counters and the closed flag. -/
structure TableState where
  items : List Item
  rl : RateLimiterState
  closed : Bool
  deriving DecidableEq, Repr

/-- The freshly constructed table. -/
def initTable : TableState := ⟨[], ⟨0, 0⟩, false⟩

/-- Whether the table currently holds the key. -/
def hasKey (s : TableState) (k : Nat) : Bool := s.items.any (fun it => it.key == k)

/-- Modelled from the spec: the insert path of InsertOrAssign once the gate
has been passed.  The item enters the map, sampler and remover with
times_sampled 0, the insert counter rises, and when the table overflows the
FIFO remover evicts the oldest item (the head), after the insert completed. -/
def doInsert (cfg : TableConfig) (s : TableState) (k : Nat) (p : Frac) : TableState :=
  let grown := s.items ++ [⟨k, p, 0⟩]
  let kept := if cfg.maxSize < grown.length then grown.tail else grown
  { s with items := kept, rl := { s.rl with insertCount := s.rl.insertCount + 1 } }

/-- Modelled from the spec: the update path of InsertOrAssign for a key that
is already present: the priority is overwritten without touching the insert
gate or the insert counter. -/
def doUpdate (s : TableState) (k : Nat) (p : Frac) : TableState :=
  { s with items := s.items.map (fun it =>
      if it.key == k then { it with priority := p } else it) }

/-- Modelled from the spec: the effect of one Sample that selected key k.
The times_sampled of the item rises; when max_times_sampled is non-negative
and the new count equals it the item is auto-deleted; the sample counter
rises. -/
def doSample (cfg : TableConfig) (s : TableState) (k : Nat) : TableState :=
  let bumped := s.items.map (fun it =>
      if it.key == k then { it with timesSampled := it.timesSampled + 1 } else it)
  let kept := bumped.filter (fun it =>
      !(it.key == k && decide (0 ≤ cfg.maxTimesSampled) &&
        it.timesSampled == cfg.maxTimesSampled))
  { s with items := kept, rl := { s.rl with sampleCount := s.rl.sampleCount + 1 } }

/-- Modelled from the spec: MutateItems applies updates for present keys,
silently skipping absent ones, then deletes present keys, silently skipping
absent ones.  No rate-limiter interaction. -/
def mutateItems (s : TableState) (updates : List (Nat × Frac))
    (deletes : List Nat) : TableState :=
  let updated := updates.foldl (fun acc kp => acc.map (fun it =>
      if it.key == kp.1 then { it with priority := kp.2 } else it)) s.items
  { s with items := updated.filter (fun it => !(deletes.contains it.key)) }

/-- Modelled from the spec: Reset clears the item map, both distributions and
the rate limiter counters. -/
def doReset (s : TableState) : TableState := { s with items := [], rl := ⟨0, 0⟩ }

/-- Modelled from the spec: Close marks the table closed; every subsequent or
woken operation observes the flag and returns CANCELLED. -/
def doClose (s : TableState) : TableState := { s with closed := true }

/-- Modelled from the spec: one call to InsertOrAssign observed at a moment
the caller can make progress.  A closed table yields CANCELLED; a present key
takes the update path without consuming insert quota; an absent key passes
the insert gate when it is open; otherwise the call is still blocked on the
gate, rendered as none. -/
def insertAttempt (cfg : TableConfig) (s : TableState) (k : Nat) (p : Frac) :
    Option (Code × TableState) :=
  if s.closed then some (Code.cancelled, s)
  else if hasKey s k then some (Code.ok, doUpdate s k p)
  else if canInsert cfg.limiter s.rl then some (Code.ok, doInsert cfg s k p)
  else none

/-- Modelled from the spec: one call to Sample on a table whose sampler is
FIFO, observed at a moment the caller can make progress.  The FIFO sampler
returns the oldest live key (the head of the remover order).  While the
table is open but the sample gate is shut or the table is empty, the call is
still blocked, rendered as none. -/
def sampleFifo (cfg : TableConfig) (s : TableState) : Option (Nat × TableState) :=
  match s.items.head? with
  | none => none
  | some it =>
      if !s.closed && canSample cfg.limiter s.rl then
        some (it.key, doSample cfg s it.key)
      else none

/-- Modelled from the spec: MutateItems as a boundary call: CANCELLED on a
closed table, otherwise the batch applies and the call succeeds. -/
def mutateAttempt (s : TableState) (updates : List (Nat × Frac))
    (deletes : List Nat) : Code × TableState :=
  if s.closed then (Code.cancelled, s) else (Code.ok, mutateItems s updates deletes)

/-- The state after an InsertOrAssign that made progress (unchanged while the
call is still blocked). -/
def afterInsert (cfg : TableConfig) (s : TableState) (k : Nat) (p : Frac) :
    TableState :=
  match insertAttempt cfg s k p with
  | some (_, t) => t
  | none => s

/-- Copy in remover iteration order (spec section 4.3): the snapshot the
checkpoint and the diagnostics read. -/
def copyKeys (s : TableState) : List Nat := s.items.map (fun it => it.key)

/-- Modelled from the spec: the keys of the items list of Checkpoint(), which
records items in remover iteration order. -/
def checkpointItemKeys (s : TableState) : List Nat := copyKeys s

/-- Repeated FIFO sampling: perform up to n Sample calls, collecting the
sampled keys, stopping early when a call blocks. -/
def drain (cfg : TableConfig) : Nat → TableState → List Nat × TableState
  | 0, s => ([], s)
  | n + 1, s =>
      match sampleFifo cfg s with
      | none => ([], s)
      | some (k, t) =>
          let r := drain cfg n t
          (k :: r.1, r.2)

/-! ## Reachable table states

Modelled from the spec: the operations of section 4.3 as a transition
relation.  An insert of a new key and a sample fire only when the respective
gate is open; a sample may select any live key (a uniform sampler can return
each of them).  Close is always permitted; other operations require an open
table. -/

/-- One state transition of an open or closing table. -/
inductive Step (cfg : TableConfig) : TableState → TableState → Prop
  | insertNew (s : TableState) (k : Nat) (p : Frac) :
      s.closed = false → hasKey s k = false → canInsert cfg.limiter s.rl = true →
      Step cfg s (doInsert cfg s k p)
  | insertExisting (s : TableState) (k : Nat) (p : Frac) :
      s.closed = false → hasKey s k = true → Step cfg s (doUpdate s k p)
  | sample (s : TableState) (k : Nat) :
      s.closed = false → hasKey s k = true → canSample cfg.limiter s.rl = true →
      Step cfg s (doSample cfg s k)
  | mutate (s : TableState) (updates : List (Nat × Frac)) (deletes : List Nat) :
      s.closed = false → Step cfg s (mutateItems s updates deletes)
  | reset (s : TableState) :
      s.closed = false → Step cfg s (doReset s)
  | close (s : TableState) : Step cfg s (doClose s)

/-- States reachable from the freshly constructed table. -/
inductive Reach (cfg : TableConfig) : TableState → Prop
  | init : Reach cfg initTable
  | step {s t : TableState} : Reach cfg s → Step cfg s t → Reach cfg t

/-! ## The times_sampled invariant -/

/-- A batch of priority updates never touches times_sampled: every member of
the folded list shares its times_sampled with a member of the input list. -/
theorem mutate_fold_ts (updates : List (Nat × Frac)) :
    ∀ (items : List Item), ∀ it ∈ updates.foldl (fun acc kp => acc.map (fun j =>
        if j.key == kp.1 then { j with priority := kp.2 } else j)) items,
      ∃ it0 ∈ items, it.timesSampled = it0.timesSampled := by
  induction updates with
  | nil => exact fun items it hit => ⟨it, hit, rfl⟩
  | cons kp rest ih =>
      intro items it hit
      simp only [List.foldl_cons] at hit
      obtain ⟨it1, hit1, hts⟩ := ih _ it hit
      rw [List.mem_map] at hit1
      obtain ⟨it0, hit0, heq⟩ := hit1
      refine ⟨it0, hit0, ?_⟩
      by_cases hk : (it0.key == kp.1) = true
      · rw [if_pos hk] at heq
        rw [hts, ← heq]
      · rw [if_neg hk] at heq
        rw [hts, ← heq]

/-- In every reachable state each live item carries a non-negative
times_sampled which, when max_times_sampled is positive, stays strictly below
that cap. -/
theorem reach_items_ts (cfg : TableConfig) (s : TableState) (h : Reach cfg s) :
    ∀ it ∈ s.items, 0 ≤ it.timesSampled ∧
      (0 < cfg.maxTimesSampled → it.timesSampled < cfg.maxTimesSampled) := by
  induction h with
  | init => intro it hit; simp [initTable] at hit
  | @step u t hr hst ih =>
      cases hst with
      | insertNew k p hcl hk hg =>
          intro it hit
          simp only [doInsert] at hit
          have hmem :
              it ∈ u.items ++ [({ key := k, priority := p, timesSampled := 0 } : Item)] := by
            by_cases hb : cfg.maxSize <
                (u.items ++ [({ key := k, priority := p, timesSampled := 0 } : Item)]).length
            · rw [if_pos hb] at hit
              exact List.tail_subset _ hit
            · rw [if_neg hb] at hit
              exact hit
          rcases List.mem_append.1 hmem with hmem | hmem
          · exact ih it hmem
          · rw [List.mem_singleton] at hmem
            subst hmem
            exact ⟨le_refl 0, fun hcap => hcap⟩
      | insertExisting k p hcl hk =>
          intro it hit
          simp only [doUpdate, List.mem_map] at hit
          obtain ⟨it0, hit0, heq⟩ := hit
          have hok := ih it0 hit0
          by_cases hkey : (it0.key == k) = true
          · rw [if_pos hkey] at heq
            subst heq
            exact hok
          · rw [if_neg hkey] at heq
            subst heq
            exact hok
      | sample k hcl hk hg =>
          intro it hit
          simp only [doSample, List.mem_filter, List.mem_map] at hit
          obtain ⟨⟨it0, hit0, heq⟩, hpred⟩ := hit
          have hok := ih it0 hit0
          by_cases hkey : (it0.key == k) = true
          · rw [if_pos hkey] at heq
            subst heq
            refine ⟨?_, ?_⟩
            · show 0 ≤ it0.timesSampled + 1
              have h1 := hok.1
              omega
            · intro hcap
              show it0.timesSampled + 1 < cfg.maxTimesSampled
              have hlt := hok.2 hcap
              have hge : (0 : ℤ) ≤ cfg.maxTimesSampled := le_of_lt hcap
              simp [hkey, hge] at hpred
              omega
          · rw [if_neg hkey] at heq
            subst heq
            exact hok
      | mutate updates deletes hcl =>
          intro it hit
          simp only [mutateItems, List.mem_filter] at hit
          obtain ⟨hmem, _⟩ := hit
          obtain ⟨it0, hit0, hts⟩ := mutate_fold_ts updates u.items it hmem
          rw [hts]
          exact ih it0 hit0
      | reset hcl =>
          intro it hit
          simp [doReset] at hit
      | close =>
          intro it hit
          exact ih it hit

/-! ## Claim C1 -/

/-- The table the unit tests build by default (MakeUniformTable): max_size
1000, max_times_sampled 0, rate limiter (1.0, 1, -DBL_MAX, DBL_MAX). -/
def tableC1 : TableConfig := ⟨1000, 0, ⟨Frac.ofInt 1, 1, dblMax.neg, dblMax⟩⟩

/-- The default table after one insert of key 3 with priority 123. -/
def stateC1 : TableState := doInsert tableC1 initTable 3 (Frac.ofInt 123)

/-- C1, counterexample: the claim asserts that whenever max_times_sampled is
non-negative no live item has times_sampled equal to it, but the default
table of the unit tests has max_times_sampled 0, and right after the first
insert (a reachable state, and the state the CopyAfterInsert test observes
with times_sampled 0) the live item carries times_sampled equal to the cap. -/
theorem c1_cap_zero_violates :
    Reach tableC1 stateC1 ∧ 0 ≤ tableC1.maxTimesSampled ∧
      stateC1.items.any (fun it => it.timesSampled == tableC1.maxTimesSampled) = true := by
  refine ⟨Reach.step Reach.init ?_, by decide, by decide⟩
  exact Step.insertNew initTable 3 (Frac.ofInt 123) rfl (by decide) (by decide)

/-- C1, amended: in every reachable state every live item has
times_sampled at least 0, and whenever max_times_sampled is positive no live
item has times_sampled equal to max_times_sampled (the item is auto-deleted
on the sampling that reaches the cap). -/
theorem c1_times_sampled_invariant (cfg : TableConfig) (s : TableState)
    (h : Reach cfg s) (it : Item) (hit : it ∈ s.items) :
    0 ≤ it.timesSampled ∧
      (0 < cfg.maxTimesSampled → it.timesSampled ≠ cfg.maxTimesSampled) := by
  obtain ⟨h1, h2⟩ := reach_items_ts cfg s h it hit
  exact ⟨h1, fun hcap => ne_of_lt (h2 hcap)⟩

/-- A table with a positive sampling cap and its state after one insert,
used to witness the amended C1 invariant. -/
def tableC1w : TableConfig := ⟨1000, 2, ⟨Frac.ofInt 1, 1, dblMax.neg, dblMax⟩⟩

/-- The positive-cap table after inserting key 3. -/
def stateC1w : TableState := doInsert tableC1w initTable 3 (Frac.ofInt 123)

/-- The item live in stateC1w. -/
def itemC1w : Item := ⟨3, Frac.ofInt 123, 0⟩

/-- C1 witness: the amended invariant evaluated on a concrete reachable
state of a cap-2 table. -/
theorem c1_times_sampled_invariant_witness :
    0 ≤ itemC1w.timesSampled ∧
      (0 < tableC1w.maxTimesSampled → itemC1w.timesSampled ≠ tableC1w.maxTimesSampled) :=
  c1_times_sampled_invariant tableC1w stateC1w
    (Reach.step Reach.init (Step.insertNew initTable 3 (Frac.ofInt 123) rfl (by decide) (by decide)))
    itemC1w (by decide)

/-! ## Claim C2 -/

/-- The rate-limiter scenario table: uniform sampler, FIFO remover, max_size
1000, no sampling cap, rate limiter (1.0, 1, -1, 1). -/
def tableC2 : TableConfig := ⟨1000, 0, ⟨Frac.ofInt 1, 1, Frac.ofInt (-1), Frac.ofInt 1⟩⟩

/-- The scenario table after the successful insert of key 1. -/
def stateC2 : TableState := afterInsert tableC2 initTable 1 (Frac.ofInt 123)

/-- The scenario table after the single Sample that follows. -/
def stateC2s : TableState := doSample tableC2 stateC2 1

/-- C2, counterexample: after the insert the counters are I=1, S=0 as the
claim says, but the error computed by the very formula the claim quotes,
E = S - r*(I - M), is 0 there, not -1. -/
theorem c2_formula_value_mismatch :
    stateC2.rl.insertCount = 1 ∧ stateC2.rl.sampleCount = 0 ∧
      Frac.eqv (errorSpecFormula tableC2.limiter stateC2.rl) (Frac.ofInt 0) = true ∧
      Frac.eqv (errorSpecFormula tableC2.limiter stateC2.rl) (Frac.ofInt (-1)) = false := by
  decide

/-- C2, amended: with the error read as E = S - r*I, after one successful
insert the counters are I=1, S=0 and E = -1; a second InsertOrAssign with a
new key finds the insert gate shut (the call blocks); and a single Sample
raises E to 0 and reopens the gate so the pending insert completes. -/
theorem c2_insert_blocks_sample_unblocks :
    insertAttempt tableC2 initTable 1 (Frac.ofInt 123) = some (Code.ok, stateC2) ∧
      stateC2.rl.insertCount = 1 ∧ stateC2.rl.sampleCount = 0 ∧
      Frac.eqv (errorDiff tableC2.limiter stateC2.rl) (Frac.ofInt (-1)) = true ∧
      insertAttempt tableC2 stateC2 10 (Frac.ofInt 123) = none ∧
      canSample tableC2.limiter stateC2.rl = true ∧
      Frac.eqv (errorDiff tableC2.limiter stateC2s.rl) (Frac.ofInt 0) = true ∧
      insertAttempt tableC2 stateC2s 10 (Frac.ofInt 123) =
        some (Code.ok, doInsert tableC2 stateC2s 10 (Frac.ofInt 123)) := by
  decide

/-! ## Claim C3 -/

/-- The overflow scenario table: uniform sampler, FIFO remover, max_size 10,
and the effectively unlimited default rate limiter. -/
def tableC3 : TableConfig := ⟨10, 0, ⟨Frac.ofInt 1, 1, dblMax.neg, dblMax⟩⟩

/-- The overflow table after inserting keys 0 through 14 in order. -/
def stateC3 : TableState :=
  (List.range 15).foldl (fun s i => afterInsert tableC3 s i (Frac.ofInt 123)) initTable

/-- C3: after inserting keys 0..14 into the max_size-10 table, size() is 10,
Copy() yields exactly the items with keys 5..14 in FIFO (remover) order, and
all 15 inserts completed (the insert counter reads 15). -/
theorem c3_overflow_eviction :
    stateC3.items.length = 10 ∧
      copyKeys stateC3 = [5, 6, 7, 8, 9, 10, 11, 12, 13, 14] ∧
      stateC3.rl.insertCount = 15 := by
  decide

/-! ## Claim C4 -/

/-- The queue scenario table: FIFO sampler and remover, max_size 10,
max_times_sampled 1, rate limiter (1.0, 1, 0, 10). -/
def tableC4 : TableConfig := ⟨10, 1, ⟨Frac.ofInt 1, 1, Frac.ofInt 0, Frac.ofInt 10⟩⟩

/-- The queue after inserting keys 0 through 9. -/
def queueC4 : TableState :=
  (List.range 10).foldl (fun s i => afterInsert tableC4 s i (Frac.ofInt 123)) initTable

/-- The queue after its first Sample (which returns key 0 and removes it). -/
def queueC4b : TableState :=
  match sampleFifo tableC4 queueC4 with
  | some (_, t) => t
  | none => queueC4

/-- The queue after the pending insert of key 10 lands. -/
def queueC4c : TableState := afterInsert tableC4 queueC4b 10 (Frac.ofInt 123)

/-- Ten further Sample calls draining the queue, with the keys they return. -/
def drainC4 : List Nat × TableState := drain tableC4 10 queueC4c

/-- The emptied queue after one more insert, of key 100. -/
def queueC4e : TableState := afterInsert tableC4 drainC4.2 100 (Frac.ofInt 123)

/-- C4: with FIFO sampler and remover, cap 1 and rate limiter (1.0, 1, 0, 10),
inserting keys 0..9 fills the queue; the 11th insert finds the gate shut
(blocks); the first Sample returns key 0 and removes it, after which the
pending insert of key 10 completes; ten further Samples return keys 1..9 and
then the freshly inserted 10, each removed when sampled, leaving the table
empty; the next Sample finds the gate shut (blocks) until a further insert
arrives, after which sampling returns that new key. -/
theorem c4_queue_mode :
    copyKeys queueC4 = [0, 1, 2, 3, 4, 5, 6, 7, 8, 9] ∧
      queueC4.rl.insertCount = 10 ∧
      insertAttempt tableC4 queueC4 10 (Frac.ofInt 123) = none ∧
      (sampleFifo tableC4 queueC4).map (fun r => r.1) = some 0 ∧
      hasKey queueC4b 0 = false ∧
      (insertAttempt tableC4 queueC4b 10 (Frac.ofInt 123)).map (fun r => r.1) =
        some Code.ok ∧
      drainC4.1 = [1, 2, 3, 4, 5, 6, 7, 8, 9, 10] ∧
      drainC4.2.items = [] ∧
      sampleFifo tableC4 drainC4.2 = none ∧
      (insertAttempt tableC4 drainC4.2 100 (Frac.ofInt 123)).map (fun r => r.1) =
        some Code.ok ∧
      (sampleFifo tableC4 queueC4e).map (fun r => r.1) = some 100 := by
  decide

/-! ## Claim C5 -/

/-- The checkpoint-order scenario table (the default test table). -/
def tableC5 : TableConfig := ⟨1000, 0, ⟨Frac.ofInt 1, 1, dblMax.neg, dblMax⟩⟩

/-- The table after inserting keys 1, 3, 2 in that order. -/
def stateC5 : TableState :=
  afterInsert tableC5
    (afterInsert tableC5
      (afterInsert tableC5 initTable 1 (Frac.ofInt 123)) 3 (Frac.ofInt 125))
    2 (Frac.ofInt 124)

/-- C5: after inserting keys 1, 3, 2 in that order into a FIFO-remover
table, the checkpoint lists the items in remover iteration order, exactly
[1, 3, 2]; the insert counter confirms all three inserts completed. -/
theorem c5_checkpoint_order :
    checkpointItemKeys stateC5 = [1, 3, 2] ∧ stateC5.rl.insertCount = 3 := by
  decide

/-! ## Claim C6 -/

/-- The partial-mutation scenario table (the default test table). -/
def tableC6 : TableConfig := ⟨1000, 0, ⟨Frac.ofInt 1, 1, dblMax.neg, dblMax⟩⟩

/-- The table holding only key 3 with priority 123. -/
def stateC6 : TableState := afterInsert tableC6 initTable 3 (Frac.ofInt 123)

/-- The outcome of MutateItems(updates=[(5,55),(3,456)], deletes=[]). -/
def mutatedC6 : Code × TableState :=
  mutateAttempt stateC6 [(5, Frac.ofInt 55), (3, Frac.ofInt 456)] []

/-- C6: on a table containing only key 3, MutateItems with updates
[(5,55),(3,456)] and no deletes succeeds, leaves exactly one item, key 3 with
priority 456, and key 5 remains absent: the update of the unknown key 5 was
silently skipped and is not an error. -/
theorem c6_mutate_partial :
    mutatedC6.1 = Code.ok ∧
      mutatedC6.2.items = [⟨3, Frac.ofInt 456, 0⟩] ∧
      hasKey mutatedC6.2 5 = false := by
  decide

/-! ## Claim C7 -/

/-- The close-cancels scenario table: same parameters as the C2 scenario. -/
def tableC7 : TableConfig := ⟨1000, 0, ⟨Frac.ofInt 1, 1, Frac.ofInt (-1), Frac.ofInt 1⟩⟩

/-- The table after the successful insert of key 1, which shuts the insert
gate. -/
def stateC7 : TableState := afterInsert tableC7 initTable 1 (Frac.ofInt 123)

/-- C7: after one insert the next InsertOrAssign of a new key finds the gate
shut (blocks); Close() marks the table closed, and the pending insert, woken
on a closed table, returns CANCELLED. -/
theorem c7_close_cancels_pending_insert :
    insertAttempt tableC7 stateC7 10 (Frac.ofInt 123) = none ∧
      (doClose stateC7).closed = true ∧
      insertAttempt tableC7 (doClose stateC7) 10 (Frac.ofInt 123) =
        some (Code.cancelled, doClose stateC7) := by
  decide

/-! ## Claim C8 -/

/-- Popping from a closed queue when returned_ already equals max_samples_
yields OUT_OF_RANGE: that branch is checked before the closed flag and the
stream status. -/
theorem popNextSample_out_of_range (s : ReplaySamplerState)
    (hq : s.queueClosed = true) (hr : s.returned = s.maxSamples) :
    popNextSample s = (Code.outOfRange, none, s) := by
  simp [popNextSample, queuePop, hq, hr]

/-- C8: when a GetNextSample call succeeds and thereby brings the number of
returned samples up to max_samples, the sampler closes its queue, and on the
resulting state the next PopNextSample, hence the next GetNextSample and the
next GetNextTimestep (which reaches PopNextSample through MaybeSampleNext
once no active sample remains), returns OUT_OF_RANGE — the error arises in
the client-side sampler, not on the table. -/
theorem c8_max_samples_out_of_range (t u : ReplaySamplerState)
    (hok : getNextSample t = (Code.ok, u))
    (hmax : u.returned = u.maxSamples) :
    popNextSample u = (Code.outOfRange, none, u) ∧
      (getNextSample u).1 = Code.outOfRange ∧
      (maybeSampleNext none u).1 = Code.outOfRange := by
  rcases hp : popNextSample t with ⟨c, x, s1⟩
  rw [getNextSample, hp] at hok
  cases c with
  | ok =>
      have hu : u = recordReturned s1 := by
        have := congrArg Prod.snd hok
        simpa using this.symm
      have hq : u.queueClosed = true := by
        rw [hu]
        rw [hu] at hmax
        simp only [recordReturned] at hmax ⊢
        simp [hmax]
      have hpop := popNextSample_out_of_range u hq hmax
      refine ⟨hpop, ?_, ?_⟩
      · rw [getNextSample, hpop]
      · rw [maybeSampleNext, hpop]
  | cancelled => simp at hok
  | deadlineExceeded => simp at hok
  | outOfRange => simp at hok
  | streamError => simp at hok

/-- The sampler state of a fresh ReplaySampler with max_samples 1 whose
worker has queued one sample. -/
def samplerC8 : ReplaySamplerState :=
  ⟨0, 1, false, false, false, [7]⟩

/-- The same sampler after the one allowed GetNextSample. -/
def samplerC8done : ReplaySamplerState :=
  ⟨1, 1, false, false, true, []⟩

/-- C8 witness: the theorem evaluated on the concrete one-sample sampler. -/
theorem c8_max_samples_out_of_range_witness :
    popNextSample samplerC8done = (Code.outOfRange, none, samplerC8done) ∧
      (getNextSample samplerC8done).1 = Code.outOfRange ∧
      (maybeSampleNext none samplerC8done).1 = Code.outOfRange :=
  c8_max_samples_out_of_range samplerC8 samplerC8done (by decide) (by decide)

/-! ## Claim C9 -/

/-- C9: the on-sample callback of InsertOnSampleExtension inserts a copy of
the item into the target table exactly when times_sampled equals 1, and is a
no-op for every other value; the copy equals the source item with the table
field replaced by the target table name and inserted_at cleared, so in
particular its key is unchanged. -/
theorem c9_insert_on_first_sample (target : String) (item : PrioritizedItem) :
    applyOnSample target item =
      (if item.timesSampled = 1 then
        some { item with table := target, insertedAt := none }
      else none) := by
  unfold applyOnSample
  by_cases h : item.timesSampled = 1 <;> simp [h]

/-! ## Claim C10 -/

/-- C10: once GetNextTimestep has been called on a Sample (any state a
GetNextTimestep call produced), a subsequent AsBatchedTimesteps on that
Sample trips the CHECK on next_timestep_called_ and aborts the process: the
two consumption modes cannot be mixed on one sample. -/
theorem c10_mixed_consumption_aborts (s t : SampleIter)
    (h : s.getNextTimestep = some t) :
    t.nextTimestepCalled = true ∧ t.asBatchedTimesteps = none := by
  have hcalled : t.nextTimestepCalled = true := by
    unfold SampleIter.getNextTimestep at h
    rcases hc : s.chunks with _ | ⟨front, rest⟩
    · rw [hc] at h
      exact Option.noConfusion h
    · rw [hc] at h
      simp only at h
      split at h <;> (cases h; rfl)
  refine ⟨hcalled, ?_⟩
  simp [SampleIter.asBatchedTimesteps, hcalled]

/-- A two-timestep single-chunk Sample as delivered to a client. -/
def sampleC10 : SampleIter := ⟨[[2]], 0, false⟩

/-- The same Sample after one GetNextTimestep call. -/
def sampleC10b : SampleIter := ⟨[[2]], 1, true⟩

/-- C10 witness: the theorem evaluated on the concrete two-timestep
sample. -/
theorem c10_mixed_consumption_aborts_witness :
    sampleC10b.nextTimestepCalled = true ∧ sampleC10b.asBatchedTimesteps = none :=
  c10_mixed_consumption_aborts sampleC10 sampleC10b (by decide)

end Reverb
